import Mathlib

/-!
Verification of the workflow-orchestrator streaming relay.

Each Lean definition below is a shallow embedding of a Python function of
the repository, translated from `src/src/orchestrator/...`.  Theorems check
the repository's natural-language specification against these embeddings.

Numeric timestamps (Python `time.time()` floats) are modelled as rationals;
string indices follow Python slicing (`List.take` / `List.drop`).
-/

set_option maxHeartbeats 1000000

namespace RateLimit

/-!  Embedding of `src/src/orchestrator/utils/rate_limit.py`.

`RateLimiter` keeps a `dict[str, RateLimitEntry]` (a `defaultdict`, so a
missing key behaves as an empty entry); we model it as a total function
from keys to timestamp lists, empty by default.  `is_allowed` prunes the
entry with `ts > now - window_seconds`, rejects without recording when
`len(entry.requests) >= max_requests`, otherwise appends `now`.  -/

structure RateLimiter where
  max_requests : ℕ
  window_seconds : ℚ
  entries : String → List ℚ

/-- `RateLimiter.__init__`: fresh limiter with no recorded requests. -/
def RateLimiter.init (maxR : ℕ) (window : ℚ) : RateLimiter :=
  { max_requests := maxR, window_seconds := window, entries := fun _ => [] }

/-- Body of `RateLimiter.is_allowed` acting on one key's request list:
prune, then admit-and-record or reject-without-recording. -/
def isAllowedEntry (maxR : ℕ) (window : ℚ) (requests : List ℚ) (now : ℚ) :
    Bool × List ℚ :=
  let pruned := requests.filter (fun ts => decide (now - window < ts))
  if maxR ≤ pruned.length then (false, pruned)
  else (true, pruned ++ [now])

/-- `RateLimiter.is_allowed(key)` at clock value `now`: updates the map at
`key` only, returns the admission decision. -/
def RateLimiter.is_allowed (rl : RateLimiter) (key : String) (now : ℚ) :
    Bool × RateLimiter :=
  let r := isAllowedEntry rl.max_requests rl.window_seconds (rl.entries key) now
  (r.1, { rl with entries := fun k => if k = key then r.2 else rl.entries k })

/-- Run a sequence of `is_allowed` calls, returning the decisions in order
and the final limiter state. -/
def runCalls (rl : RateLimiter) : List (String × ℚ) → List Bool × RateLimiter
  | [] => ([], rl)
  | (key, now) :: rest =>
      let r := rl.is_allowed key now
      let rec' := runCalls r.2 rest
      (r.1 :: rec'.1, rec'.2)

theorem runCalls_nil (rl : RateLimiter) : runCalls rl [] = ([], rl) := rfl

theorem runCalls_cons (rl : RateLimiter) (key : String) (now : ℚ)
    (rest : List (String × ℚ)) :
    runCalls rl ((key, now) :: rest) =
      ((rl.is_allowed key now).1 ::
          (runCalls (rl.is_allowed key now).2 rest).1,
        (runCalls (rl.is_allowed key now).2 rest).2) := rfl

theorem runCalls_singleton_snd (rl : RateLimiter) (key : String) (now : ℚ) :
    (runCalls rl [(key, now)]).2 = (rl.is_allowed key now).2 := rfl

theorem is_allowed_fst (rl : RateLimiter) (key : String) (now : ℚ) :
    (rl.is_allowed key now).1 =
      (isAllowedEntry rl.max_requests rl.window_seconds (rl.entries key)
        now).1 := rfl

theorem is_allowed_snd_entries (rl : RateLimiter) (key : String) (now : ℚ)
    (k : String) :
    ((rl.is_allowed key now).2).entries k =
      if k = key then
        (isAllowedEntry rl.max_requests rl.window_seconds (rl.entries key)
          now).2
      else rl.entries k := rfl

theorem is_allowed_snd_max (rl : RateLimiter) (key : String) (now : ℚ) :
    ((rl.is_allowed key now).2).max_requests = rl.max_requests := rfl

theorem is_allowed_snd_window (rl : RateLimiter) (key : String) (now : ℚ) :
    ((rl.is_allowed key now).2).window_seconds = rl.window_seconds := rfl

theorem init_max (m : ℕ) (w : ℚ) : (RateLimiter.init m w).max_requests = m :=
  rfl

theorem init_window (m : ℕ) (w : ℚ) :
    (RateLimiter.init m w).window_seconds = w := rfl

theorem init_entries (m : ℕ) (w : ℚ) (k : String) :
    (RateLimiter.init m w).entries k = [] := rfl

theorem runCalls_append (rl : RateLimiter) (xs ys : List (String × ℚ)) :
    runCalls rl (xs ++ ys) =
      ((runCalls rl xs).1 ++ (runCalls (runCalls rl xs).2 ys).1,
        (runCalls (runCalls rl xs).2 ys).2) := by
  induction xs generalizing rl with
  | nil => simp [runCalls]
  | cons x rest ih =>
      obtain ⟨key, now⟩ := x
      simp [runCalls, ih]

theorem runCalls_params (rl : RateLimiter) (calls : List (String × ℚ)) :
    (runCalls rl calls).2.max_requests = rl.max_requests ∧
      (runCalls rl calls).2.window_seconds = rl.window_seconds := by
  induction calls generalizing rl with
  | nil => exact ⟨rfl, rfl⟩
  | cons c rest ih =>
      obtain ⟨key, now⟩ := c
      simpa [runCalls, RateLimiter.is_allowed] using ih _

/-- One admitted call appends exactly the clock value when nothing is pruned
and the entry is below capacity. -/
theorem isAllowedEntry_admit (maxR : ℕ) (window : ℚ) (requests : List ℚ)
    (now : ℚ) (hkeep : ∀ ts ∈ requests, now - window < ts)
    (hlen : requests.length < maxR) :
    isAllowedEntry maxR window requests now = (true, requests ++ [now]) := by
  have hfil : requests.filter (fun ts => decide (now - window < ts)) = requests :=
    List.filter_eq_self.mpr (fun a ha => by simpa using hkeep a ha)
  unfold isAllowedEntry
  simp only [hfil]
  rw [if_neg (by omega)]

/-- One rejected call: at capacity, nothing pruned, nothing recorded. -/
theorem isAllowedEntry_reject (maxR : ℕ) (window : ℚ) (requests : List ℚ)
    (now : ℚ) (hkeep : ∀ ts ∈ requests, now - window < ts)
    (hlen : maxR ≤ requests.length) :
    isAllowedEntry maxR window requests now = (false, requests) := by
  have hfil : requests.filter (fun ts => decide (now - window < ts)) = requests :=
    List.filter_eq_self.mpr (fun a ha => by simpa using hkeep a ha)
  unfold isAllowedEntry
  simp only [hfil]
  rw [if_pos hlen]

/-- Under-capacity single-key runs where no timestamp falls out of the
window: every call is admitted and the entry accumulates the call times. -/
theorem runCalls_all_admitted (key : String) (times : List ℚ) (T : ℚ)
    (rl : RateLimiter)
    (hlen : (rl.entries key).length + times.length ≤ rl.max_requests)
    (hle : ∀ t ∈ times, t ≤ T)
    (hkeep : ∀ x ∈ rl.entries key ++ times, T - rl.window_seconds < x) :
    (runCalls rl (times.map (fun t => (key, t)))).1 =
        List.replicate times.length true ∧
      (runCalls rl (times.map (fun t => (key, t)))).2.entries key =
        rl.entries key ++ times := by
  induction times generalizing rl with
  | nil => simp [runCalls]
  | cons t rest ih =>
      have htT : t ≤ T := hle t (by simp)
      have hkeepNow : ∀ ts ∈ rl.entries key, t - rl.window_seconds < ts := by
        intro ts hts
        have h1 : T - rl.window_seconds < ts := hkeep ts (by simp [hts])
        have : t - rl.window_seconds ≤ T - rl.window_seconds := by linarith
        linarith
      have hlt : (rl.entries key).length < rl.max_requests := by
        simp only [List.length_cons] at hlen; omega
      have hstep : isAllowedEntry rl.max_requests rl.window_seconds
          (rl.entries key) t = (true, rl.entries key ++ [t]) :=
        isAllowedEntry_admit _ _ _ _ hkeepNow hlt
      set rl' : RateLimiter :=
        { rl with entries := fun k => if k = key then rl.entries key ++ [t]
            else rl.entries k } with hrl'
      have hrun : runCalls rl (((t :: rest)).map (fun t => (key, t))) =
          (true :: (runCalls rl' (rest.map (fun t => (key, t)))).1,
            (runCalls rl' (rest.map (fun t => (key, t)))).2) := by
        simp [runCalls, RateLimiter.is_allowed, hstep, hrl']
      have hrest := ih rl'
        (by simp [hrl', List.length_append] at hlen ⊢; omega)
        (fun x hx => hle x (by simp [hx]))
        (by
          intro x hx
          simp only [hrl', if_pos rfl, List.append_assoc] at hx
          exact hkeep x (by simpa using hx))
      rw [hrun]
      refine ⟨?_, ?_⟩
      · simp [hrest.1, List.replicate_succ]
      · have := hrest.2
        simp only [hrl', if_pos rfl] at this
        simp [this]

/-- Entry lengths never exceed `max_requests` after a call, provided they
did not before. -/
theorem isAllowedEntry_length_le (maxR : ℕ) (window : ℚ) (requests : List ℚ)
    (now : ℚ) (h : requests.length ≤ maxR) :
    (isAllowedEntry maxR window requests now).2.length ≤ maxR := by
  unfold isAllowedEntry
  have hfil : (requests.filter (fun ts => decide (now - window < ts))).length
      ≤ requests.length := List.length_filter_le _ _
  by_cases hcap : maxR ≤ (requests.filter
      (fun ts => decide (now - window < ts))).length
  · simp only [if_pos hcap]; omega
  · simp only [if_neg hcap, List.length_append, List.length_cons,
      List.length_nil]
    omega

/-- Every timestamp stored for any key after a run is one of the call times
for that key (entries only ever record the clock value of a call). -/
theorem runCalls_entries_subset (rl : RateLimiter) (calls : List (String × ℚ))
    (key : String) (ts : ℚ)
    (h : ts ∈ (runCalls rl calls).2.entries key) :
    ts ∈ rl.entries key ∨ (key, ts) ∈ calls := by
  induction calls generalizing rl with
  | nil => simp only [runCalls] at h; exact Or.inl h
  | cons c rest ih =>
      obtain ⟨k, now⟩ := c
      simp only [runCalls] at h
      rcases ih _ h with hin | hin
      · simp only [RateLimiter.is_allowed] at hin
        by_cases hk : key = k
        · subst hk
          simp only [if_pos rfl] at hin
          unfold isAllowedEntry at hin
          by_cases hcap : rl.max_requests ≤ ((rl.entries key).filter
              (fun t => decide (now - rl.window_seconds < t))).length
          · simp only [if_pos hcap] at hin
            exact Or.inl (List.mem_of_mem_filter hin)
          · simp only [if_neg hcap] at hin
            replace hin : ts ∈ ((rl.entries key).filter
                (fun t => decide (now - rl.window_seconds < t))) ++ [now] := hin
            rcases List.mem_append.mp hin with hin | hin
            · exact Or.inl (List.mem_of_mem_filter hin)
            · simp only [List.mem_singleton] at hin
              subst hin
              exact Or.inr (by simp)
        · simp only [if_neg hk] at hin
          exact Or.inl hin
      · exact Or.inr (by simp [hin])

/-- Entry lengths are bounded by `max_requests` after any run starting from
a state already satisfying the bound. -/
theorem runCalls_length_le (rl : RateLimiter) (calls : List (String × ℚ))
    (hinit : ∀ k, (rl.entries k).length ≤ rl.max_requests) (key : String) :
    ((runCalls rl calls).2.entries key).length ≤ rl.max_requests := by
  induction calls generalizing rl with
  | nil => simpa [runCalls] using hinit key
  | cons c rest ih =>
      obtain ⟨k, now⟩ := c
      simp only [runCalls]
      have hstep : ∀ k', (((rl.is_allowed k now).2).entries k').length
          ≤ rl.max_requests := by
        intro k'
        simp only [RateLimiter.is_allowed]
        by_cases hk : k' = k
        · simp only [if_pos hk]
          exact isAllowedEntry_length_le _ _ _ _ (hinit k)
        · simp only [if_neg hk]
          exact hinit k'
      have hparams := runCalls_params rl [(k, now)]
      have hmax : ((rl.is_allowed k now).2).max_requests = rl.max_requests := by
        simp [RateLimiter.is_allowed]
      have := ih (rl.is_allowed k now).2 (by rw [hmax]; exact hstep)
      rwa [hmax] at this

/-- Every timestamp a call leaves in the entry is either strictly newer than
`now - window` (it survived pruning) or is `now` itself (just recorded). -/
theorem isAllowedEntry_mem (maxR : ℕ) (window : ℚ) (l : List ℚ) (now ts : ℚ)
    (h : ts ∈ (isAllowedEntry maxR window l now).2) :
    now - window < ts ∨ ts = now := by
  unfold isAllowedEntry at h
  by_cases hcap : maxR ≤ (l.filter (fun x => decide (now - window < x))).length
  · simp only [if_pos hcap] at h
    exact Or.inl (by simpa using List.of_mem_filter h)
  · simp only [if_neg hcap] at h
    replace h : ts ∈ (l.filter (fun x => decide (now - window < x))) ++ [now] := h
    rcases List.mem_append.mp h with h | h
    · exact Or.inl (by simpa using List.of_mem_filter h)
    · exact Or.inr (by simpa using h)

end RateLimit

/-- C6: `RateLimiter.is_allowed` prunes timestamps at or before
`now - window`, admits and records `now` below capacity, rejects without
recording at capacity; `max + 1` calls for one key within a window admit the
first `max` and reject the last, and once the window has elapsed the same
key is admitted again. -/
theorem C6_rate_limiter_sliding_window (m : ℕ) (w : ℚ) (key : String)
    (times : List ℚ) (tR tA : ℚ)
    (hm : 0 < m) (hlen : times.length = m)
    (hle : ∀ t ∈ times, t ≤ tR)
    (hwin : ∀ t ∈ times, tR - w < t)
    (helapse : ∀ t ∈ times, t ≤ tA - w) :
    (∀ (l : List ℚ) (now : ℚ),
      ((l.filter (fun x => decide (now - w < x))).length < m →
        RateLimit.isAllowedEntry m w l now =
          (true, l.filter (fun x => decide (now - w < x)) ++ [now])) ∧
      (m ≤ (l.filter (fun x => decide (now - w < x))).length →
        RateLimit.isAllowedEntry m w l now =
          (false, l.filter (fun x => decide (now - w < x))))) ∧
    (RateLimit.runCalls (RateLimit.RateLimiter.init m w)
        ((times ++ [tR]).map (fun t => (key, t)))).1
      = List.replicate m true ++ [false] ∧
    (RateLimit.runCalls (RateLimit.RateLimiter.init m w)
        ((times ++ [tR, tA]).map (fun t => (key, t)))).1
      = List.replicate m true ++ [false, true] := by
  have hchar : ∀ (l : List ℚ) (now : ℚ),
      ((l.filter (fun x => decide (now - w < x))).length < m →
        RateLimit.isAllowedEntry m w l now =
          (true, l.filter (fun x => decide (now - w < x)) ++ [now])) ∧
      (m ≤ (l.filter (fun x => decide (now - w < x))).length →
        RateLimit.isAllowedEntry m w l now =
          (false, l.filter (fun x => decide (now - w < x)))) := by
    intro l now
    constructor
    · intro h
      unfold RateLimit.isAllowedEntry
      rw [if_neg (by omega)]
    · intro h
      unfold RateLimit.isAllowedEntry
      rw [if_pos h]
  have hadm := RateLimit.runCalls_all_admitted key times tR
      (RateLimit.RateLimiter.init m w)
      (by simp [RateLimit.RateLimiter.init, hlen])
      hle
      (by
        intro x hx
        simp only [RateLimit.RateLimiter.init, List.nil_append] at hx
        exact hwin x hx)
  set rl1 := (RateLimit.runCalls (RateLimit.RateLimiter.init m w)
      (times.map (fun t => (key, t)))).2 with hrl1
  have hp := RateLimit.runCalls_params (RateLimit.RateLimiter.init m w)
      (times.map (fun t => (key, t)))
  have hmax1 : rl1.max_requests = m := hp.1
  have hwin1 : rl1.window_seconds = w := hp.2
  have hent1 : rl1.entries key = times := by
    have h2 := hadm.2
    simpa [RateLimit.RateLimiter.init] using h2
  have hfilA : times.filter (fun x => decide (tA - w < x)) = [] := by
    rw [List.filter_eq_nil_iff]
    intro a ha
    simpa using not_lt.mpr (helapse a ha)
  have hd1 : (rl1.is_allowed key tR).1 = false := by
    rw [RateLimit.is_allowed_fst, hmax1, hwin1, hent1,
      RateLimit.isAllowedEntry_reject m w times tR hwin hlen.ge]
  have hmax2 : ((rl1.is_allowed key tR).2).max_requests = m := by
    rw [RateLimit.is_allowed_snd_max, hmax1]
  have hwin2 : ((rl1.is_allowed key tR).2).window_seconds = w := by
    rw [RateLimit.is_allowed_snd_window, hwin1]
  have hent2 : ((rl1.is_allowed key tR).2).entries key = times := by
    rw [RateLimit.is_allowed_snd_entries, if_pos rfl, hmax1, hwin1, hent1,
      RateLimit.isAllowedEntry_reject m w times tR hwin hlen.ge]
  have hd2 : (((rl1.is_allowed key tR).2).is_allowed key tA).1 = true := by
    rw [RateLimit.is_allowed_fst, hmax2, hwin2, hent2]
    simp only [RateLimit.isAllowedEntry, hfilA, List.length_nil]
    rw [if_neg (by omega)]
  refine ⟨hchar, ?_, ?_⟩
  · have hsplit : (times ++ [tR]).map (fun t => (key, t)) =
        times.map (fun t => (key, t)) ++ [(key, tR)] := by simp
    rw [hsplit, RateLimit.runCalls_append, hadm.1, ← hrl1, hlen,
      RateLimit.runCalls_cons, hd1]
    simp [RateLimit.runCalls_nil]
  · have hsplit : (times ++ [tR, tA]).map (fun t => (key, t)) =
        times.map (fun t => (key, t)) ++ [(key, tR), (key, tA)] := by simp
    rw [hsplit, RateLimit.runCalls_append, hadm.1, ← hrl1, hlen,
      RateLimit.runCalls_cons, hd1, RateLimit.runCalls_cons, hd2]
    simp [RateLimit.runCalls_nil]

/-- Witness for C6 at `max_requests = 2`, `window = 60`: calls at times
0, 1, 2 admit, admit, reject; a call at time 100 is admitted again. -/
theorem C6_witness :
    (0 : ℕ) < 2 ∧
    (RateLimit.runCalls (RateLimit.RateLimiter.init 2 60)
        (([(0 : ℚ), 1] ++ [2]).map (fun t => (("U1" : String), t)))).1
      = List.replicate 2 true ++ [false] := by
  refine ⟨by norm_num, ?_⟩
  have h := C6_rate_limiter_sliding_window 2 60 "U1" [(0 : ℚ), 1] 2 100
    (by norm_num) (by norm_num)
    (by
      intro t ht
      rw [List.mem_cons, List.mem_singleton] at ht
      rcases ht with rfl | rfl <;> norm_num)
    (by
      intro t ht
      rw [List.mem_cons, List.mem_singleton] at ht
      rcases ht with rfl | rfl <;> norm_num)
    (by
      intro t ht
      rw [List.mem_cons, List.mem_singleton] at ht
      rcases ht with rfl | rfl <;> norm_num)
  exact h.2.1

/-- C10 as stated is violated by lazy pruning: entries of a key are pruned
only when that key itself is checked, so another key's check can complete
while stale timestamps (outside the now-current window) remain stored.
Key "A" is checked at time 0; after key "B"'s check at time 100 completes
(window 60), "A" still stores timestamp 0, which is not inside the current
window. -/
theorem C10_counterexample :
    (0 : ℚ) ∈ ((RateLimit.runCalls (RateLimit.RateLimiter.init 10 60)
        [("A", 0), ("B", 100)]).2.entries "A") ∧
    ¬ ((100 : ℚ) - 60 < 0) := by
  constructor
  · simp [RateLimit.runCalls, RateLimit.RateLimiter.is_allowed,
      RateLimit.isAllowedEntry, RateLimit.RateLimiter.init]
  · norm_num

/-- C10 (amended): after any same-run sequence of calls with the final
check's clock not smaller than the earlier ones, every key's stored list
has length at most `max_requests`, and the list stored for the key just
checked contains only timestamps strictly inside that check's window
(older keys are pruned lazily, only when next checked). -/
theorem C10_rate_window_invariant (m : ℕ) (w : ℚ)
    (calls : List (String × ℚ)) (key : String) (t : ℚ)
    (hw : 0 < w) (hle : ∀ c ∈ calls, c.2 ≤ t) :
    (∀ k, (((RateLimit.runCalls (RateLimit.RateLimiter.init m w)
        (calls ++ [(key, t)])).2.entries k)).length ≤ m) ∧
    (∀ ts ∈ (RateLimit.runCalls (RateLimit.RateLimiter.init m w)
        (calls ++ [(key, t)])).2.entries key,
      t - w < ts ∧ ts ≤ t) := by
  constructor
  · intro k
    exact RateLimit.runCalls_length_le _ _
      (by intro k'; simp [RateLimit.RateLimiter.init]) k
  · intro ts hts
    constructor
    · -- freshly checked key: pruning plus possibly the new record
      rw [RateLimit.runCalls_append, RateLimit.runCalls_singleton_snd,
        RateLimit.is_allowed_snd_entries, if_pos rfl] at hts
      have hp := RateLimit.runCalls_params (RateLimit.RateLimiter.init m w)
        calls
      rw [hp.1, hp.2, RateLimit.init_max, RateLimit.init_window] at hts
      rcases RateLimit.isAllowedEntry_mem m w _ t ts hts with h | h
      · exact h
      · rw [h]; linarith
    · -- every stored timestamp is one of the call times, all ≤ t
      have hsub := RateLimit.runCalls_entries_subset
        (RateLimit.RateLimiter.init m w) (calls ++ [(key, t)]) key ts hts
      rcases hsub with h | h
      · simp [RateLimit.RateLimiter.init] at h
      · rcases List.mem_append.mp h with h | h
        · exact hle _ h
        · simp only [List.mem_singleton, Prod.mk.injEq] at h
          exact le_of_eq h.2

/-- Witness for the amended C10 at `max_requests = 2`, `window = 60`,
one earlier call for key "A" at time 5, checked again at time 7. -/
theorem C10_witness :
    ((0 : ℚ) < 60 ∧ ∀ c ∈ [(("A" : String), (5 : ℚ))], c.2 ≤ 7) ∧
    ((∀ k, (((RateLimit.runCalls (RateLimit.RateLimiter.init 2 60)
        ([(("A" : String), (5 : ℚ))] ++ [("A", 7)])).2.entries k)).length ≤ 2) ∧
    (∀ ts ∈ (RateLimit.runCalls (RateLimit.RateLimiter.init 2 60)
        ([(("A" : String), (5 : ℚ))] ++ [("A", 7)])).2.entries "A",
      (7 : ℚ) - 60 < ts ∧ ts ≤ 7)) := by
  have hle : ∀ c ∈ [(("A" : String), (5 : ℚ))], c.2 ≤ 7 := by
    intro c hc
    simp only [List.mem_singleton] at hc
    rw [hc]
    norm_num
  exact ⟨⟨by norm_num, hle⟩,
    C10_rate_window_invariant 2 60 [("A", 5)] "A" 7 (by norm_num) hle⟩

namespace SessionId

/-!  Embedding of `generate_session_id` in
`src/src/orchestrator/api/webhooks/slack.py`:

    key = f"{team_id}-{channel_id}-{thread_ts or 'main'}"
    return str(uuid.uuid5(uuid.NAMESPACE_DNS, key))

`uuid.uuid5` is SHA-1 of the namespace bytes followed by the UTF-8 name,
truncated to 128 bits with the version/variant bits forced, rendered as the
standard hex/dash form.  The SHA-1 implementation below reproduces the
library function over byte lists (32-bit words as `ℕ` reduced `% 2^32`);
it matches `uuid.uuid5(uuid.NAMESPACE_DNS, ...)` on reference vectors
(e.g. "python.org" ↦ 886313e1-3b8a-5372-9b90-0c9aee199e5d).  -/

def rotl32 (s x : ℕ) : ℕ := (((x % 2 ^ 32) <<< s) ||| (x >>> (32 - s))) % 2 ^ 32

def word32 (b0 b1 b2 b3 : ℕ) : ℕ := b0 * 2 ^ 24 + b1 * 2 ^ 16 + b2 * 2 ^ 8 + b3

def toWords : List ℕ → List ℕ
  | b0 :: b1 :: b2 :: b3 :: rest => word32 b0 b1 b2 b3 :: toWords rest
  | _ => []

def chunks64 (bs : List ℕ) : List (List ℕ) :=
  if h : bs = [] then []
  else bs.take 64 :: chunks64 (bs.drop 64)
termination_by bs.length
decreasing_by
  simp only [List.length_drop]
  exact Nat.sub_lt (List.length_pos.mpr h) (by norm_num)

def extendWords (ws : List ℕ) : Array ℕ :=
  (List.range 64).foldl (fun arr i =>
    let j := i + 16
    arr.push (rotl32 1 ((arr.getD (j - 3) 0) ^^^ (arr.getD (j - 8) 0) ^^^
      (arr.getD (j - 14) 0) ^^^ (arr.getD (j - 16) 0)))) ws.toArray

def sha1FK (i b c d : ℕ) : ℕ × ℕ :=
  if i < 20 then ((b &&& c) ||| (((2 ^ 32 - 1) ^^^ b) &&& d), 0x5A827999)
  else if i < 40 then (b ^^^ c ^^^ d, 0x6ED9EBA1)
  else if i < 60 then ((b &&& c) ||| (b &&& d) ||| (c &&& d), 0x8F1BBCDC)
  else (b ^^^ c ^^^ d, 0xCA62C1D6)

def processChunk (h : ℕ × ℕ × ℕ × ℕ × ℕ) (chunk : List ℕ) :
    ℕ × ℕ × ℕ × ℕ × ℕ :=
  let w := extendWords (toWords chunk)
  let s := (List.range 80).foldl (fun (st : ℕ × ℕ × ℕ × ℕ × ℕ) i =>
    let (a, b, c, d, e) := st
    let fk := sha1FK i b c d
    ((rotl32 5 a + fk.1 + e + fk.2 + w.getD i 0) % 2 ^ 32,
      a, rotl32 30 b, c, d)) h
  ((h.1 + s.1) % 2 ^ 32, (h.2.1 + s.2.1) % 2 ^ 32,
    (h.2.2.1 + s.2.2.1) % 2 ^ 32, (h.2.2.2.1 + s.2.2.2.1) % 2 ^ 32,
    (h.2.2.2.2 + s.2.2.2.2) % 2 ^ 32)

def be64 (n : ℕ) : List ℕ :=
  [(n >>> 56) % 256, (n >>> 48) % 256, (n >>> 40) % 256, (n >>> 32) % 256,
    (n >>> 24) % 256, (n >>> 16) % 256, (n >>> 8) % 256, n % 256]

def be32 (n : ℕ) : List ℕ :=
  [(n >>> 24) % 256, (n >>> 16) % 256, (n >>> 8) % 256, n % 256]

def padMessage (msg : List ℕ) : List ℕ :=
  let padZeros := (55 + 64 - msg.length % 64) % 64
  msg ++ [0x80] ++ List.replicate padZeros 0 ++ be64 (msg.length * 8)

def sha1 (msg : List ℕ) : List ℕ :=
  let h := (chunks64 (padMessage msg)).foldl processChunk
    (0x67452301, 0xEFCDAB89, 0x98BADCFE, 0x10325476, 0xC3D2E1F0)
  be32 h.1 ++ be32 h.2.1 ++ be32 h.2.2.1 ++ be32 h.2.2.2.1 ++ be32 h.2.2.2.2

def utf8Bytes (s : String) : List ℕ := s.toUTF8.toList.map (fun b => b.toNat)

def NAMESPACE_DNS : List ℕ :=
  [0x6b, 0xa7, 0xb8, 0x10, 0x9d, 0xad, 0x11, 0xd1,
    0x80, 0xb4, 0x00, 0xc0, 0x4f, 0xd4, 0x30, 0xc8]

def hexChar (n : ℕ) : Char :=
  if n < 10 then Char.ofNat (48 + n) else Char.ofNat (87 + n)

def byteHex (b : ℕ) : List Char := [hexChar (b / 16), hexChar (b % 16)]

def setVersion5 (bs : List ℕ) : List ℕ :=
  bs.mapIdx (fun i b =>
    if i = 6 then (b &&& 0x0F) ||| 0x50
    else if i = 8 then (b &&& 0x3F) ||| 0x80
    else b)

def uuidFromBytes (bs : List ℕ) : String :=
  let hx := (bs.map byteHex).flatten
  String.mk (hx.take 8 ++ ['-'] ++ (hx.drop 8).take 4 ++ ['-'] ++
    (hx.drop 12).take 4 ++ ['-'] ++ (hx.drop 16).take 4 ++ ['-'] ++ hx.drop 20)

def uuid5 (ns : List ℕ) (name : String) : String :=
  uuidFromBytes (setVersion5 ((sha1 (ns ++ utf8Bytes name)).take 16))

/-- Python `thread_ts or "main"`: `None` and the empty string (both falsy)
default to `"main"`. -/
def orMain : Option String → String
  | none => "main"
  | some s => if s.isEmpty then "main" else s

/-- The derivation key `f"{team_id}-{channel_id}-{thread_ts or 'main'}"`. -/
def sessionKey (team_id channel_id : String) (thread_ts : Option String) :
    String :=
  team_id ++ "-" ++ channel_id ++ "-" ++ orMain thread_ts

/-- `generate_session_id` from `api/webhooks/slack.py`. -/
def generate_session_id (team_id channel_id : String)
    (thread_ts : Option String) : String :=
  uuid5 NAMESPACE_DNS (sessionKey team_id channel_id thread_ts)

end SessionId

/-- C4 counterexample: the thread anchors `None` and `"main"` differ, yet
`generate_session_id` maps both to the same key `"T123-C456-main"` and hence
to the same SessionId, refuting "two calls that differ only in the thread
anchor ... produce different SessionIds". -/
theorem C4_counterexample :
    SessionId.generate_session_id "T123" "C456" none =
        SessionId.generate_session_id "T123" "C456" (some "main") ∧
      (none : Option String) ≠ some "main" := by
  constructor
  · have hk : SessionId.sessionKey "T123" "C456" none =
        SessionId.sessionKey "T123" "C456" (some "main") := rfl
    exact congrArg (SessionId.uuid5 SessionId.NAMESPACE_DNS) hk
  · simp

/-- C4 (amended): `generate_session_id` is a pure function of the derivation
key `f"{team}-{channel}-{thread_ts or 'main'}"` alone — identical inputs
(and more generally identical keys) always give identical SessionIds — and
two thread anchors whose defaulted strings differ produce different
derivation keys under the same team and channel (hence different SessionIds
up to SHA-1 collision; anchors `None`, `""` and `"main"` coincide). -/
theorem C4_session_id_deterministic (team channel : String)
    (a1 a2 : Option String) :
    (SessionId.sessionKey team channel a1 =
        SessionId.sessionKey team channel a2 →
      SessionId.generate_session_id team channel a1 =
        SessionId.generate_session_id team channel a2) ∧
    (SessionId.orMain a1 ≠ SessionId.orMain a2 →
      SessionId.sessionKey team channel a1 ≠
        SessionId.sessionKey team channel a2) := by
  constructor
  · intro hk
    exact congrArg (SessionId.uuid5 SessionId.NAMESPACE_DNS) hk
  · intro hne hk
    apply hne
    have hdata := congrArg String.data hk
    simp only [SessionId.sessionKey, String.data_append] at hdata
    have := List.append_cancel_left hdata
    exact String.ext this

/-- Witness for the amended C4: equal keys for two calls with the same
inputs give equal ids; the defaulted anchors "123.5" and "main" differ, so
their keys differ. -/
theorem C4_witness :
    (SessionId.sessionKey "T123" "C456" (some "123.5") =
        SessionId.sessionKey "T123" "C456" (some "123.5") →
      SessionId.generate_session_id "T123" "C456" (some "123.5") =
        SessionId.generate_session_id "T123" "C456" (some "123.5")) ∧
    (SessionId.orMain (some "123.5") ≠ SessionId.orMain none →
      SessionId.sessionKey "T123" "C456" (some "123.5") ≠
        SessionId.sessionKey "T123" "C456" none) ∧
    SessionId.orMain (some "123.5") ≠ SessionId.orMain none := by
  refine ⟨(C4_session_id_deterministic "T123" "C456"
      (some "123.5") (some "123.5")).1,
    (C4_session_id_deterministic "T123" "C456" (some "123.5") none).2, ?_⟩
  decide

namespace ClaudeParser

/-!  Embedding of `src/src/orchestrator/services/claude_parser.py`.

A raw stream line is either blank (strips to empty), invalid (non-blank but
`json.loads` raises `JSONDecodeError`), or decoded to a JSON value.  JSON
values are the usual inductive; numbers are rationals.  Python's dynamic
field accesses are modelled as follows: `dict.get` on the top-level record
is total only for objects — on any other decoded value Python raises
`AttributeError`, which we model as `Except.error`.  Inside a record,
fields carrying an unexpected runtime type (a non-list `content`, a
non-string `text`, ...) would likewise raise or propagate odd objects in
Python; the embedding totalises them with the code's defaults, and no
theorem below depends on those off-type corners.  -/

inductive Json where
  | null
  | bool (b : Bool)
  | num (q : ℚ)
  | str (s : String)
  | arr (xs : List Json)
  | obj (fields : List (String × Json))

/-- Key lookup in a decoded JSON object (post-`json.loads` dicts have
unique keys). -/
def lookupField : List (String × Json) → String → Option Json
  | [], _ => none
  | (k, v) :: rest, key => if k = key then some v else lookupField rest key

/-- `data.get(key)` (total on objects; `None` ↦ `none`). -/
def Json.get (j : Json) (key : String) : Option Json :=
  match j with
  | .obj fs => lookupField fs key
  | _ => none

/-- `data.get(key, default)`. -/
def Json.getD (j : Json) (key : String) (d : Json) : Json :=
  (j.get key).getD d

/-- Python truthiness of a decoded JSON value. -/
def truthy : Json → Bool
  | .null => false
  | .bool b => b
  | .num q => decide (q ≠ 0)
  | .str s => !s.isEmpty
  | .arr xs => !xs.isEmpty
  | .obj fs => !fs.isEmpty

def optTruthy (o : Option Json) : Bool :=
  match o with
  | some v => truthy v
  | none => false

/-- A `.get` result used as a string, with the code's default. -/
def asStrD (o : Option Json) (d : String) : String :=
  match o with
  | some (.str s) => s
  | _ => d

/-- A `.get` result used as a number, with the code's default. -/
def asNumD (o : Option Json) (d : ℚ) : ℚ :=
  match o with
  | some (.num q) => q
  | _ => d

/-- A decoded value used as a list (`content` blocks). -/
def asArr : Json → List Json
  | .arr xs => xs
  | _ => []

/-- Python `value == "literal"` where `value` came from `.get` (false for
`None` and for non-string values). -/
def jstrEq (o : Option Json) (s : String) : Bool :=
  match o with
  | some (.str t) => t = s
  | _ => false

inductive EventType where
  | system
  | assistant
  | user
  | result
deriving DecidableEq

structure ToolUse where
  id : String
  name : String
  input : Json
  file_path : Option String := none

structure ToolResult where
  tool_use_id : String
  content : Option String := none
  is_error : Bool := false

structure ClaudeStats where
  duration_ms : ℚ := 0
  duration_api_ms : ℚ := 0
  num_turns : ℚ := 0
  total_cost_usd : ℚ := 0
  input_tokens : ℚ := 0
  output_tokens : ℚ := 0
  cache_read_tokens : ℚ := 0
  cache_creation_tokens : ℚ := 0

structure ParsedEvent where
  type : EventType
  text : Option String := none
  tool_use : Option ToolUse := none
  tool_result : Option ToolResult := none
  stats : Option ClaudeStats := none
  is_final : Bool := false
  is_error : Bool := false
  session_id : Option Json := none

structure StreamState where
  session_id : Option Json := none
  current_text : String := ""
  tool_notifications : List String := []
  files_read : ℕ := 0
  files_edited : ℕ := 0
  files_written : ℕ := 0
  commands_run : ℕ := 0
  searches : ℕ := 0
  stats : Option ClaudeStats := none
  is_complete : Bool := false
  is_error : Bool := false
  error_message : Option String := none

/-- `ClaudeStreamParser.__init__`: `StreamState()` with all defaults. -/
def initState : StreamState := {}

/-- `ClaudeStreamParser._extract_file_path`. -/
def extract_file_path (tu : ToolUse) : Option String :=
  if tu.name = "Read" ∨ tu.name = "Edit" ∨ tu.name = "Write" then
    match tu.input.get "file_path" with
    | some (.str s) => some s
    | _ => none
  else if tu.name = "Bash" then
    some ((asStrD (tu.input.get "command") "").take 50)
  else if tu.name = "Glob" ∨ tu.name = "Grep" then
    some (asStrD (tu.input.get "pattern") "")
  else if tu.name = "WebFetch" then
    some ((asStrD (tu.input.get "url") "").take 50)
  else if tu.name = "WebSearch" then
    some ((asStrD (tu.input.get "query") "").take 50)
  else none

/-- `f"_Reading {file_path}_" if file_path else "_Reading file_"` etc. —
`None` and `""` are both falsy. -/
def notifWith (fp : Option String) (withPath : String → String)
    (without : String) : String :=
  match fp with
  | some s => if s.isEmpty then without else withPath s
  | none => without

/-- `ClaudeStreamParser._track_tool_use`: bump the per-kind counter and
append one notification string. -/
def track_tool_use (st : StreamState) (tu : ToolUse) : StreamState :=
  let fp := tu.file_path
  let r : StreamState × String :=
    if tu.name = "Read" then
      ({ st with files_read := st.files_read + 1 },
        notifWith fp (fun p => s!"_Reading {p}_") "_Reading file_")
    else if tu.name = "Edit" then
      ({ st with files_edited := st.files_edited + 1 },
        notifWith fp (fun p => s!"_Editing {p}_") "_Editing file_")
    else if tu.name = "Write" then
      ({ st with files_written := st.files_written + 1 },
        notifWith fp (fun p => s!"_Writing {p}_") "_Writing file_")
    else if tu.name = "Bash" then
      ({ st with commands_run := st.commands_run + 1 },
        notifWith fp (fun p => s!"_Running: {p}_") "_Running command_")
    else if tu.name = "Glob" ∨ tu.name = "Grep" then
      ({ st with searches := st.searches + 1 },
        notifWith fp (fun p => s!"_Searching: {p}_") "_Searching_")
    else if tu.name = "WebFetch" then
      (st, notifWith fp (fun p => s!"_Fetching: {p}_") "_Fetching URL_")
    else if tu.name = "WebSearch" then
      (st, notifWith fp (fun p => s!"_Searching web: {p}_") "_Web search_")
    else if tu.name = "Task" then (st, "_Launching agent_")
    else
      let n := tu.name
      (st, s!"_Using {n}_")
  { r.1 with tool_notifications := r.1.tool_notifications ++ [r.2] }

/-- The `for block in content` loop of `_parse_assistant_event`: collects
text parts in order, keeps the last `tool_use`, threads the state through
`_track_tool_use`. -/
def processBlocks (st : StreamState) :
    List Json → List String × Option ToolUse × StreamState
  | [] => ([], none, st)
  | b :: rest =>
      if jstrEq (b.get "type") "text" then
        let r := processBlocks st rest
        (asStrD (b.get "text") "" :: r.1, r.2)
      else if jstrEq (b.get "type") "tool_use" then
        let tu0 : ToolUse := { id := asStrD (b.get "id") "",
                               name := asStrD (b.get "name") "",
                               input := b.getD "input" (.obj []) }
        let tu : ToolUse := { tu0 with file_path := extract_file_path tu0 }
        let r := processBlocks (track_tool_use st tu) rest
        (r.1, (r.2.1).orElse (fun _ => some tu), r.2.2)
      else processBlocks st rest

/-- `ClaudeStreamParser._parse_assistant_event`. -/
def parse_assistant_event (st : StreamState) (data : Json) :
    StreamState × ParsedEvent :=
  let message := data.getD "message" (.obj [])
  let content := asArr (message.getD "content" (.arr []))
  let session_id := data.get "session_id"
  let st1 := if optTruthy session_id then { st with session_id := session_id }
    else st
  let r := processBlocks st1 content
  let full_text := String.join r.1
  let st2 := if full_text.isEmpty then r.2.2
    else { r.2.2 with current_text := full_text }
  (st2, { type := .assistant,
          text := if full_text.isEmpty then none else some full_text,
          tool_use := r.2.1,
          session_id := session_id })

/-- `ClaudeStreamParser._parse_system_event`. -/
def parse_system_event (st : StreamState) (data : Json) :
    StreamState × ParsedEvent :=
  let subtype := data.get "subtype"
  let session_id := data.get "session_id"
  let st1 := if jstrEq subtype "init" && optTruthy session_id then
    { st with session_id := session_id } else st
  (st1, { type := .system, session_id := session_id })

/-- `ClaudeStreamParser._parse_user_event`. -/
def parse_user_event (st : StreamState) (data : Json) :
    StreamState × ParsedEvent :=
  let message := data.getD "message" (.obj [])
  let content := asArr (message.getD "content" (.arr []))
  let tool_result := content.foldl (fun acc b =>
    if jstrEq (b.get "type") "tool_result" then
      some ({ tool_use_id := asStrD (b.get "tool_use_id") "",
              is_error := optTruthy (b.get "is_error") } : ToolResult)
    else acc) none
  (st, { type := .user, tool_result := tool_result })

/-- `ClaudeStreamParser._parse_result_event`. -/
def parse_result_event (st : StreamState) (data : Json) :
    StreamState × ParsedEvent :=
  let subtype := data.get "subtype"
  let is_error := optTruthy (data.get "is_error") || jstrEq subtype "error"
  let result_text := asStrD (data.get "result") ""
  let usage := data.getD "usage" (.obj [])
  let stats : ClaudeStats :=
    { duration_ms := asNumD (data.get "duration_ms") 0,
      duration_api_ms := asNumD (data.get "duration_api_ms") 0,
      num_turns := asNumD (data.get "num_turns") 0,
      total_cost_usd := asNumD (data.get "total_cost_usd") 0,
      input_tokens := asNumD (usage.get "input_tokens") 0,
      output_tokens := asNumD (usage.get "output_tokens") 0,
      cache_read_tokens := asNumD (usage.get "cache_read_input_tokens") 0,
      cache_creation_tokens :=
        asNumD (usage.get "cache_creation_input_tokens") 0 }
  let st1 := { st with
    stats := some stats, is_complete := true,
    is_error := is_error,
    error_message := if is_error then some result_text else st.error_message }
  (st1, { type := .result, text := some result_text, stats := some stats,
          is_final := true, is_error := is_error,
          session_id := data.get "session_id" })

/-- Dispatch of `parse_line` on a decoded value.  A decoded non-object has
no `.get` attribute: Python raises `AttributeError` (only
`json.JSONDecodeError` is caught), modelled as `Except.error`. -/
def parseDecoded (st : StreamState) (data : Json) :
    Except String (StreamState × Option ParsedEvent) :=
  match data with
  | .obj _ =>
      match data.get "type" with
      | some (.str t) =>
          if t = "system" then
            let r := parse_system_event st data
            .ok (r.1, some r.2)
          else if t = "assistant" then
            let r := parse_assistant_event st data
            .ok (r.1, some r.2)
          else if t = "user" then
            let r := parse_user_event st data
            .ok (r.1, some r.2)
          else if t = "result" then
            let r := parse_result_event st data
            .ok (r.1, some r.2)
          else .ok (st, none)
      | _ => .ok (st, none)
  | _ => .error "AttributeError"

/-- A raw line as seen by `parse_line` after `line.strip()` and
`json.loads`. -/
inductive RawLine where
  | blank
  | invalid (s : String)
  | decoded (j : Json)

/-- `ClaudeStreamParser.parse_line`. -/
def parse_line (st : StreamState) (line : RawLine) :
    Except String (StreamState × Option ParsedEvent) :=
  match line with
  | .blank => .ok (st, none)
  | .invalid _ => .ok (st, none)
  | .decoded j => parseDecoded st j

/-- The state after one `parse_line` call (an uncaught exception leaves the
parser state as it was). -/
def parsedState (st : StreamState) (line : RawLine) : StreamState :=
  match parse_line st line with
  | .ok r => r.1
  | .error _ => st

/-- Feeding a sequence of lines; an uncaught exception aborts the stream. -/
def processLines (st : StreamState) : List RawLine → StreamState
  | [] => st
  | l :: rest =>
      match parse_line st l with
      | .ok r => processLines r.1 rest
      | .error _ => st

/-- The in-order texts of the `text` content blocks of one record. -/
def blockTexts : List Json → List String
  | [] => []
  | b :: rest =>
      if jstrEq (b.get "type") "text" then
        asStrD (b.get "text") "" :: blockTexts rest
      else blockTexts rest

/-- The `full_text` an assistant record produces: the concatenation of its
`text` blocks. -/
def assistantFullText (data : Json) : String :=
  String.join (blockTexts (asArr ((data.getD "message" (.obj [])).getD
    "content" (.arr []))))

/-- A well-formed assistant stream record with the given content blocks. -/
def assistantRecord (blocks : List Json) : Json :=
  .obj [("type", .str "assistant"),
        ("message", .obj [("content", .arr blocks)])]

/-- A well-formed `text` content block. -/
def textBlock (s : String) : Json :=
  .obj [("type", .str "text"), ("text", .str s)]

theorem track_tool_use_current_text (st : StreamState) (tu : ToolUse) :
    (track_tool_use st tu).current_text = st.current_text := by
  unfold track_tool_use
  repeat' split
  all_goals rfl

theorem processBlocks_texts (st : StreamState) (blocks : List Json) :
    (processBlocks st blocks).1 = blockTexts blocks := by
  induction blocks generalizing st with
  | nil => rfl
  | cons b rest ih =>
      by_cases h1 : jstrEq (b.get "type") "text"
      · simp [processBlocks, blockTexts, h1, ih]
      · by_cases h2 : jstrEq (b.get "type") "tool_use"
        · simp [processBlocks, blockTexts, h1, h2, ih]
        · simp [processBlocks, blockTexts, h1, h2, ih]

theorem processBlocks_current_text (st : StreamState) (blocks : List Json) :
    (processBlocks st blocks).2.2.current_text = st.current_text := by
  induction blocks generalizing st with
  | nil => rfl
  | cons b rest ih =>
      by_cases h1 : jstrEq (b.get "type") "text"
      · simp [processBlocks, h1, ih]
      · by_cases h2 : jstrEq (b.get "type") "tool_use"
        · simp [processBlocks, h1, h2, ih, track_tool_use_current_text]
        · simp [processBlocks, h1, h2, ih]

theorem parse_assistant_current_text (st : StreamState) (data : Json) :
    (parse_assistant_event st data).1.current_text =
      if (assistantFullText data).isEmpty then st.current_text
      else assistantFullText data := by
  unfold parse_assistant_event assistantFullText
  dsimp only
  generalize hst1 : (if optTruthy (Json.get data "session_id") = true then
      { st with session_id := Json.get data "session_id" } else st) = st1
  have hcur1 : st1.current_text = st.current_text := by
    rw [← hst1]; split <;> rfl
  generalize hC : asArr ((data.getD "message" (Json.obj [])).getD "content"
      (Json.arr [])) = content
  rw [processBlocks_texts st1 content]
  by_cases hft : (String.join (blockTexts content)).isEmpty
  · rw [if_pos hft, if_pos hft, processBlocks_current_text, hcur1]
  · rw [if_neg hft, if_neg hft]

theorem parse_system_current_text (st : StreamState) (data : Json) :
    (parse_system_event st data).1.current_text = st.current_text := by
  unfold parse_system_event
  dsimp only
  split <;> rfl

theorem parse_user_current_text (st : StreamState) (data : Json) :
    (parse_user_event st data).1.current_text = st.current_text := rfl

theorem parse_result_current_text (st : StreamState) (data : Json) :
    (parse_result_event st data).1.current_text = st.current_text := rfl

/-- The replacement text a line contributes: `some full_text` exactly for
an assistant record whose text blocks join to a non-empty string. -/
def nonemptyAssistantText (line : RawLine) : Option String :=
  match line with
  | .decoded (.obj fs) =>
      match (Json.obj fs).get "type" with
      | some (.str t) =>
          if t = "system" then none
          else if t = "assistant" then
            if (assistantFullText (.obj fs)).isEmpty then none
            else some (assistantFullText (.obj fs))
          else none
      | _ => none
  | _ => none

/-- One `parse_line` step either keeps `current_text` or replaces it by the
record's own non-empty full text. -/
theorem parsedState_current_text (st : StreamState) (line : RawLine) :
    (parsedState st line).current_text =
      (nonemptyAssistantText line).getD st.current_text := by
  cases line with
  | blank => rfl
  | invalid s => rfl
  | decoded j =>
      cases j with
      | null => rfl
      | bool b => rfl
      | num q => rfl
      | str s => rfl
      | arr xs => rfl
      | obj fs =>
          simp only [parsedState, parse_line, parseDecoded,
            nonemptyAssistantText]
          cases (Json.obj fs).get "type" with
          | none => rfl
          | some v =>
              cases v with
              | null => rfl
              | bool b => rfl
              | num q => rfl
              | arr xs => rfl
              | obj fs2 => rfl
              | str t =>
                  by_cases h1 : t = "system"
                  · subst h1
                    simp [parse_system_current_text]
                  · by_cases h2 : t = "assistant"
                    · subst h2
                      simp only [if_neg h1, if_pos rfl, reduceIte]
                      rw [parse_assistant_current_text st (.obj fs)]
                      by_cases hft : (assistantFullText (.obj fs)).isEmpty
                      · rw [if_pos hft, if_pos hft]; rfl
                      · rw [if_neg hft, if_neg hft]; rfl
                    · by_cases h3 : t = "user"
                      · subst h3
                        simp [h1, parse_user_current_text]
                      · by_cases h4 : t = "result"
                        · subst h4
                          simp [h1, parse_result_current_text]
                        · simp [h1, h2, h3, h4]

theorem processLines_cons_eq (st : StreamState) (l : RawLine)
    (rest : List RawLine) :
    processLines st (l :: rest) =
      match parse_line st l with
      | .ok _ => processLines (parsedState st l) rest
      | .error _ => st := by
  simp only [processLines, parsedState]
  cases hp : parse_line st l <;> simp [hp]

/-- Monotonicity of `current_text` length along prefixes, for streams whose
assistant events carry non-decreasing (cumulative) texts. -/
theorem processLines_mono_aux (lines : List RawLine) :
    ∀ (st : StreamState) (k : ℕ),
    List.Sorted (· ≤ ·)
      ((lines.filterMap nonemptyAssistantText).map String.length) →
    (∀ ft, (lines.filterMap nonemptyAssistantText).head? = some ft →
      st.current_text.length ≤ ft.length) →
    (processLines st (lines.take k)).current_text.length ≤
      (processLines st (lines.take (k + 1))).current_text.length := by
  induction lines with
  | nil =>
      intro st k _ _
      simp [processLines]
  | cons l rest ih =>
      intro st k hs hinit
      cases hp : parse_line st l with
      | error e =>
          cases k with
          | zero =>
              simp only [List.take_zero, List.take_succ_cons,
                processLines_cons_eq, hp, processLines]
              exact le_refl _
          | succ k' =>
              simp only [List.take_succ_cons, processLines_cons_eq, hp]
              exact le_refl _
      | ok r =>
          have hcur : r.1.current_text =
              (nonemptyAssistantText l).getD st.current_text := by
            have hps : parsedState st l = r.1 := by
              simp [parsedState, hp]
            rw [← hps, parsedState_current_text]
          cases k with
          | zero =>
              simp only [List.take_zero, List.take_succ_cons,
                processLines_cons_eq, hp, processLines]
              rw [hcur]
              cases hna : nonemptyAssistantText l with
              | none => simp
              | some ft =>
                  simp only [Option.getD_some]
                  apply hinit
                  simp [List.filterMap_cons, hna]
          | succ k' =>
              simp only [List.take_succ_cons, processLines_cons_eq, hp,
                processLines]
              cases hna : nonemptyAssistantText l with
              | none =>
                  apply ih
                  · simpa [List.filterMap_cons, hna] using hs
                  · intro ft hft
                    rw [hcur, hna, Option.getD_none]
                    exact hinit ft
                      (by simpa [List.filterMap_cons, hna] using hft)
              | some ft0 =>
                  have hs' := hs
                  simp only [List.filterMap_cons, hna, List.map_cons,
                    List.sorted_cons] at hs'
                  apply ih
                  · exact hs'.2
                  · intro ft hft
                    rw [hcur, hna, Option.getD_some]
                    have hmem : ft ∈ rest.filterMap nonemptyAssistantText :=
                      List.mem_of_mem_head? hft
                    exact hs'.1 _ (List.mem_map_of_mem _ hmem)

end ClaudeParser

/-- C1 counterexample: after an assistant record whose text blocks join to
"Hello", a second assistant record with no text blocks leaves
`current_text = "Hello"`, not the empty concatenation of the second
record's own blocks — the universally stated claim fails for text-free
assistant records. -/
theorem C1_counterexample :
    (ClaudeParser.processLines ClaudeParser.initState
        [.decoded (ClaudeParser.assistantRecord
          [ClaudeParser.textBlock "Hel", ClaudeParser.textBlock "lo"]),
         .decoded (ClaudeParser.assistantRecord [])]).current_text =
      "Hello" ∧ ("Hello" : String) ≠ "" := by
  exact ⟨rfl, by decide⟩

/-- C1 (amended): processing an assistant record sets (replaces, never
appends) `current_text` to the in-order concatenation of that record's own
text blocks whenever that concatenation is non-empty; when the record
contributes no text, `current_text` is left unchanged.  In particular two
text blocks are concatenated. -/
theorem C1_current_text_replaced (st : ClaudeParser.StreamState)
    (blocks : List ClaudeParser.Json) :
    (ClaudeParser.parsedState st
        (.decoded (ClaudeParser.assistantRecord blocks))).current_text =
      if (String.join (ClaudeParser.blockTexts blocks)).isEmpty
      then st.current_text
      else String.join (ClaudeParser.blockTexts blocks) := by
  have hroute : ClaudeParser.parsedState st
      (.decoded (ClaudeParser.assistantRecord blocks)) =
      (ClaudeParser.parse_assistant_event st
        (ClaudeParser.assistantRecord blocks)).1 := rfl
  have hft : ClaudeParser.assistantFullText
      (ClaudeParser.assistantRecord blocks) =
      String.join (ClaudeParser.blockTexts blocks) := rfl
  rw [hroute, ClaudeParser.parse_assistant_current_text, hft]

/-- C7 counterexample: the line "42" is non-blank and fails to decode as a
structured record (it decodes to the bare number 42); `parse_line` then
calls `.get` on it and raises `AttributeError` — only `JSONDecodeError` is
caught — instead of returning no event. -/
theorem C7_counterexample :
    ClaudeParser.parse_line ClaudeParser.initState
        (.decoded (ClaudeParser.Json.num 42)) =
      Except.error "AttributeError" := rfl

/-- C7 (amended): a blank line, or a line on which JSON decoding fails,
makes `parse_line` return no event and change nothing, without raising;
(a non-blank line that decodes to a non-object value raises instead). -/
theorem C7_noise_lines_skipped (st : ClaudeParser.StreamState) (s : String) :
    ClaudeParser.parse_line st .blank = .ok (st, none) ∧
      ClaudeParser.parse_line st (.invalid s) = .ok (st, none) :=
  ⟨rfl, rfl⟩

/-- C8 counterexample: the parser replaces `current_text` by each assistant
record's own text, so an assistant event carrying a shorter text than the
previous one strictly shrinks the accumulated text — length is not
monotone for arbitrary pre-terminal streams. -/
theorem C8_counterexample :
    ((ClaudeParser.processLines ClaudeParser.initState
        [.decoded (ClaudeParser.assistantRecord
            [ClaudeParser.textBlock "Hello"]),
         .decoded (ClaudeParser.assistantRecord
            [ClaudeParser.textBlock "a"])]).current_text).length <
      ((ClaudeParser.processLines ClaudeParser.initState
        [.decoded (ClaudeParser.assistantRecord
            [ClaudeParser.textBlock "Hello"])]).current_text).length := by
  decide

/-- C8 (amended): for streams in which the assistant events' non-empty
full texts have non-decreasing lengths — the cumulative-text contract the
agent's stream obeys — the length of `current_text` is monotonically
non-decreasing across `parse_line` calls. -/
theorem C8_current_text_monotone (lines : List ClaudeParser.RawLine)
    (k : ℕ)
    (hs : List.Sorted (· ≤ ·)
      ((lines.filterMap ClaudeParser.nonemptyAssistantText).map
        String.length)) :
    ((ClaudeParser.processLines ClaudeParser.initState
        (lines.take k)).current_text).length ≤
      ((ClaudeParser.processLines ClaudeParser.initState
        (lines.take (k + 1))).current_text).length :=
  ClaudeParser.processLines_mono_aux lines ClaudeParser.initState k hs
    (fun ft _ => by simp [ClaudeParser.initState])

/-- Witness for the amended C8 on a concrete growing stream. -/
theorem C8_witness :
    List.Sorted (· ≤ ·)
      ((([ClaudeParser.RawLine.decoded (ClaudeParser.assistantRecord
            [ClaudeParser.textBlock "a"]),
          ClaudeParser.RawLine.decoded (ClaudeParser.assistantRecord
            [ClaudeParser.textBlock "ab"])]).filterMap
        ClaudeParser.nonemptyAssistantText).map String.length) ∧
    ((ClaudeParser.processLines ClaudeParser.initState
        (([ClaudeParser.RawLine.decoded (ClaudeParser.assistantRecord
            [ClaudeParser.textBlock "a"]),
          ClaudeParser.RawLine.decoded (ClaudeParser.assistantRecord
            [ClaudeParser.textBlock "ab"])]).take 1)).current_text).length ≤
      ((ClaudeParser.processLines ClaudeParser.initState
        (([ClaudeParser.RawLine.decoded (ClaudeParser.assistantRecord
            [ClaudeParser.textBlock "a"]),
          ClaudeParser.RawLine.decoded (ClaudeParser.assistantRecord
            [ClaudeParser.textBlock "ab"])]).take (1 + 1))).current_text).length := by
  refine ⟨?_, ?_⟩
  · decide
  · exact C8_current_text_monotone _ 1 (by decide)

namespace SlackStream

/-!  Embedding of `StreamingSlackUpdater` in
`src/src/orchestrator/services/slack_client.py`.

The chat surface is modelled as a map from message ids (monotonically
issued naturals standing for Slack `ts` values) to message text;
`post_message` issues `nextTs` and `update_message` rewrites one entry —
the success path of the HTTP calls, which is all the split/continuation
logic observes.  Python string slicing is by code points, i.e. `List.take`
/ `List.drop` on `String.data`.  Clock values (`time.time()`) are
rationals passed explicitly.  -/

def strTake (s : String) (n : ℕ) : String := String.mk (s.data.take n)

def strDrop (s : String) (n : ℕ) : String := String.mk (s.data.drop n)

structure Surface where
  texts : ℕ → Option String
  nextTs : ℕ

/-- `SlackClient.post_message` (success path): issues a fresh ts. -/
def Surface.post (sf : Surface) (text : String) : Surface × ℕ :=
  ({ texts := fun t => if t = sf.nextTs then some text else sf.texts t,
     nextTs := sf.nextTs + 1 }, sf.nextTs)

/-- `SlackClient.update_message` (success path). -/
def Surface.updateMsg (sf : Surface) (ts : ℕ) (text : String) : Surface :=
  { sf with texts := fun t => if t = ts then some text else sf.texts t }

structure StreamingSlackUpdater where
  channel : String
  thread_ts : ℕ
  update_interval : ℚ := 1
  max_message_length : ℕ := 39000
  current_message : Option ℕ := none
  last_update_time : ℚ := 0
  pending_text : String := ""
  message_count : ℕ := 0

/-- `StreamingSlackUpdater.start`. -/
def start (u : StreamingSlackUpdater) (sf : Surface) (now : ℚ)
    (initial_text : String) : StreamingSlackUpdater × Surface :=
  let r := sf.post initial_text
  ({ u with current_message := some r.2, last_update_time := now,
            pending_text := initial_text, message_count := 1 }, r.1)

/-- `StreamingSlackUpdater._split_message`: finalize the current message
with the fixed-offset truncation and post the continuation (`ts` is the
current message id; `update` only calls this with one present). -/
def split_message (u : StreamingSlackUpdater) (sf : Surface) (now : ℚ)
    (text : String) (ts : ℕ) : StreamingSlackUpdater × Surface :=
  let truncated := strTake text (u.max_message_length - 100) ++
    "\n\n_(continued...)_"
  let sf1 := sf.updateMsg ts truncated
  let remaining := strDrop text (u.max_message_length - 100)
  let n := u.message_count + 1
  let continuation_header := s!"_(continuation {n})_\n\n"
  let r := sf1.post (continuation_header ++ remaining)
  ({ u with current_message := some r.2,
            message_count := u.message_count + 1,
            last_update_time := now }, r.1)

/-- `StreamingSlackUpdater.update`. -/
def update (u : StreamingSlackUpdater) (sf : Surface) (now : ℚ)
    (text : String) (force : Bool) : StreamingSlackUpdater × Surface :=
  match u.current_message with
  | none => start u sf now text
  | some ts =>
      let u1 := { u with pending_text := text }
      if force = false ∧ now - u1.last_update_time < u1.update_interval then
        (u1, sf)
      else if u1.max_message_length < text.length then
        split_message u1 sf now text ts
      else
        ({ u1 with last_update_time := now }, sf.updateMsg ts text)

theorem strTake_append_strDrop (s : String) (n : ℕ) :
    strTake s n ++ strDrop s n = s := by
  show String.mk (s.data.take n ++ s.data.drop n) = s
  rw [List.take_append_drop]

end SlackStream

namespace ClaudeProc

/-!  Embedding of `ClaudeProcessor._split_and_continue` in
`src/src/orchestrator/services/claude.py` (the in-process execution
strategy).  `str.rfind(c, a, b)` is the greatest index `i` with
`a ≤ i < b` and `s[i] = c`; `str.lstrip()` drops leading whitespace.  -/

def SLACK_MAX_MESSAGE_LENGTH : ℕ := 39000

structure StreamState where
  text : String := ""
  msg_ts : Option ℕ := none
  last_update_ms : ℚ := 0
  last_streamed_len : ℕ := 0
  continuation_count : ℕ := 0
  all_message_ts : List ℕ := []
  reported_files : List String := []
  reported_actions : List String := []

/-- Python `s.rfind(c, a, b)` as an `Option` (`-1` becomes `none`). -/
def rfind1 (s : List Char) (c : Char) (a b : ℕ) : Option ℕ :=
  ((List.range' a (b - a)).filter (fun i => decide (s[i]? = some c))).getLast?

/-- `if pos > 0: break_point = pos else: <fallback>` (with `-1` for a
failed find, only a strictly positive index is taken). -/
def posIfPositive (o : Option ℕ) (fallback : ℕ) : ℕ :=
  match o with
  | some i => if 0 < i then i else fallback
  | none => fallback

/-- The cut position chosen by `_split_and_continue`: the last newline in
`[safe_cutoff - 500, safe_cutoff)`, else the last space in
`[safe_cutoff - 100, safe_cutoff)`, else `safe_cutoff` itself. -/
def breakPoint (tl : List Char) : ℕ :=
  let safe_cutoff := SLACK_MAX_MESSAGE_LENGTH - 200
  posIfPositive (rfind1 tl '\n' (safe_cutoff - 500) safe_cutoff)
    (posIfPositive (rfind1 tl ' ' (safe_cutoff - 100) safe_cutoff)
      safe_cutoff)

/-- `str.lstrip()`. -/
def lstripChars (l : List Char) : List Char :=
  l.dropWhile (fun c => c.isWhitespace)

/-- `ClaudeProcessor._split_and_continue` (the Slack call is the success
path of `SlackMessenger.update`). -/
def split_and_continue (st : StreamState) (sf : SlackStream.Surface) :
    StreamState × SlackStream.Surface :=
  let tl := st.text.data
  let break_point := breakPoint tl
  let finalized := String.mk (tl.take break_point) ++
    "\n\n_[Continued in next message...]_"
  let r : SlackStream.Surface × List ℕ :=
    match st.msg_ts with
    | some ts => (sf.updateMsg ts finalized, st.all_message_ts ++ [ts])
    | none => (sf, st.all_message_ts)
  let remainder := String.mk (lstripChars (tl.drop break_point))
  let n := st.continuation_count + 1
  let st1 := { st with
    text := s!"_[Continuation {n}]_\n\n" ++ remainder,
    msg_ts := none, last_streamed_len := 0,
    continuation_count := n, all_message_ts := r.2 }
  (st1, r.1)

theorem rfind1_spec (s : List Char) (c : Char) (a b i : ℕ)
    (h : rfind1 s c a b = some i) :
    s[i]? = some c ∧ a ≤ i ∧ i < a + (b - a) := by
  have hmem0 : i ∈ ((List.range' a (b - a)).filter
      (fun i => decide (s[i]? = some c))).getLast? := by
    show i ∈ rfind1 s c a b
    rw [h]; exact rfl
  obtain ⟨hne, heq⟩ := List.mem_getLast?_eq_getLast hmem0
  have hmem : i ∈ (List.range' a (b - a)).filter
      (fun i => decide (s[i]? = some c)) := heq ▸ List.getLast_mem hne
  have h1 := List.of_mem_filter hmem
  have h2 := List.mem_of_mem_filter hmem
  rw [List.mem_range'] at h2
  obtain ⟨j, hj, rfl⟩ := h2
  refine ⟨by simpa using h1, by omega, by omega⟩

theorem strMk_append (a b : List Char) :
    String.mk a ++ String.mk b = String.mk (a ++ b) := rfl

theorem strMk_data (s : String) : String.mk s.data = s := rfl

/-- Dropping only whitespace: the removed characters are whitespace and
re-inserting them restores the suffix. -/
theorem lstripChars_spec (l : List Char) :
    (∀ ch ∈ l.takeWhile (fun c => c.isWhitespace), ch.isWhitespace = true) ∧
      l.takeWhile (fun c => c.isWhitespace) ++ lstripChars l = l :=
  ⟨fun _ hch => List.mem_takeWhile_imp hch,
    List.takeWhile_append_dropWhile _ _⟩

end ClaudeProc

/-- C9: `update` with no current message (no `start` yet) does not fail or
drop the text — it behaves exactly as `start(text)`: it posts a new chat
message carrying the text, which becomes the current message, with the
continuation counter at 1. -/
theorem C9_update_posts_when_no_current
    (u : SlackStream.StreamingSlackUpdater) (sf : SlackStream.Surface)
    (now : ℚ) (text : String) (force : Bool)
    (h : u.current_message = none) :
    SlackStream.update u sf now text force =
        SlackStream.start u sf now text ∧
      (SlackStream.update u sf now text force).1.current_message =
        some sf.nextTs ∧
      (SlackStream.update u sf now text force).2.texts sf.nextTs =
        some text ∧
      (SlackStream.update u sf now text force).1.pending_text = text ∧
      (SlackStream.update u sf now text force).1.message_count = 1 := by
  have he : SlackStream.update u sf now text force =
      SlackStream.start u sf now text := by
    unfold SlackStream.update
    rw [h]
  refine ⟨he, ?_, ?_, ?_, ?_⟩ <;> rw [he] <;>
    simp [SlackStream.start, SlackStream.Surface.post]

/-- Witness for C9: a fresh updater, first interaction through `update`. -/
theorem C9_witness :
    ({ channel := "C", thread_ts := 0 } :
        SlackStream.StreamingSlackUpdater).current_message = none ∧
      (SlackStream.update { channel := "C", thread_ts := 0 }
          { texts := fun _ => none, nextTs := 0 } 5 "hi" false).1.pending_text
        = "hi" ∧
      (SlackStream.update { channel := "C", thread_ts := 0 }
          { texts := fun _ => none, nextTs := 0 } 5 "hi" false).2.texts 0 =
        some "hi" := by
  have h := C9_update_posts_when_no_current
    { channel := "C", thread_ts := 0 }
    { texts := fun _ => none, nextTs := 0 } 5 "hi" false rfl
  exact ⟨rfl, h.2.2.2.1, h.2.2.1⟩

/-- C3 counterexample: `StreamingSlackUpdater._split_message` cuts at the
fixed offset `max_message_length - 100`, not at a safe cut point — here a
newline sits at index 5, strictly before the cut at index 10, yet the
finalized visible prefix "aaaaa\naaaa" runs past it (it does not end at the
last newline, as the claimed newline-preferring cut would). -/
theorem C3_counterexample :
    (SlackStream.update
          { channel := "C", thread_ts := 0, update_interval := 1,
            max_message_length := 110, current_message := some 0,
            last_update_time := 0, pending_text := "", message_count := 1 }
          { texts := fun t => if t = 0 then some "old" else none,
            nextTs := 1 }
          10 ("aaaaa\n" ++ String.mk (List.replicate 105 'a'))
          true).1.message_count = 2 ∧
      (SlackStream.update
          { channel := "C", thread_ts := 0, update_interval := 1,
            max_message_length := 110, current_message := some 0,
            last_update_time := 0, pending_text := "", message_count := 1 }
          { texts := fun t => if t = 0 then some "old" else none,
            nextTs := 1 }
          10 ("aaaaa\n" ++ String.mk (List.replicate 105 'a'))
          true).2.texts 0 =
        some ("aaaaa\naaaa" ++ "\n\n_(continued...)_") ∧
      ("aaaaa\n" ++ String.mk (List.replicate 105 'a')).data[5]? =
        some '\n' ∧
      ¬ ("aaaaa\naaaa" : String).data.getLast? = some '\n' := by
  refine ⟨?_, ?_, ?_, ?_⟩ <;> decide

/-- C3 (amended).  First half — `StreamingSlackUpdater.update` on text
strictly longer than the maximum, past the debounce and with a current
message: exactly one split occurs (one new message, counter +1), but the
current message is finalized with the truncation marker at the *fixed*
offset `max - 100` (no newline/space preference), the continuation message
carries the remainder behind a continuation marker, and prefix + remainder
reconstruct the original text exactly (modulo the two markers).  Second
half — `ClaudeProcessor._split_and_continue` does prefer the last newline
of the tail window as the cut, and increments its continuation counter by
one, but it left-strips the remainder, so reconstruction holds only after
re-inserting the whitespace dropped at the cut. -/
theorem C3_split_once_and_reconstruct
    (u : SlackStream.StreamingSlackUpdater) (sf : SlackStream.Surface)
    (now : ℚ) (text : String) (force : Bool) (ts : ℕ)
    (hcur : u.current_message = some ts)
    (hts : ts ≠ sf.nextTs)
    (hdeb : force = true ∨ u.update_interval ≤ now - u.last_update_time)
    (hlen : u.max_message_length < text.length) :
    ((SlackStream.update u sf now text force).1.message_count =
        u.message_count + 1 ∧
      (SlackStream.update u sf now text force).1.current_message =
        some sf.nextTs ∧
      (SlackStream.update u sf now text force).2.nextTs = sf.nextTs + 1 ∧
      (SlackStream.update u sf now text force).2.texts ts =
        some (SlackStream.strTake text (u.max_message_length - 100) ++
          "\n\n_(continued...)_") ∧
      (SlackStream.update u sf now text force).2.texts sf.nextTs =
        some ((let n := u.message_count + 1
               s!"_(continuation {n})_\n\n") ++
          SlackStream.strDrop text (u.max_message_length - 100)) ∧
      SlackStream.strTake text (u.max_message_length - 100) ++
          SlackStream.strDrop text (u.max_message_length - 100) = text) ∧
    (∀ (stp : ClaudeProc.StreamState) (sfp : SlackStream.Surface),
      (ClaudeProc.split_and_continue stp sfp).1.continuation_count =
          stp.continuation_count + 1 ∧
        (∃ ws : List Char, (∀ ch ∈ ws, ch.isWhitespace = true) ∧
          String.mk (stp.text.data.take (ClaudeProc.breakPoint
              stp.text.data)) ++ String.mk ws ++
            String.mk (ClaudeProc.lstripChars (stp.text.data.drop
              (ClaudeProc.breakPoint stp.text.data))) = stp.text) ∧
        (ClaudeProc.split_and_continue stp sfp).1.text =
          (let n := stp.continuation_count + 1
           s!"_[Continuation {n}]_\n\n") ++
            String.mk (ClaudeProc.lstripChars (stp.text.data.drop
              (ClaudeProc.breakPoint stp.text.data))) ∧
        (∀ i, ClaudeProc.rfind1 stp.text.data '\n'
            (ClaudeProc.SLACK_MAX_MESSAGE_LENGTH - 200 - 500)
            (ClaudeProc.SLACK_MAX_MESSAGE_LENGTH - 200) = some i →
          stp.text.data[i]? = some '\n' ∧
            ClaudeProc.breakPoint stp.text.data = i)) := by
  constructor
  · -- StreamingSlackUpdater.update takes the split path
    have hsplit : SlackStream.update u sf now text force =
        SlackStream.split_message { u with pending_text := text } sf now
          text ts := by
      unfold SlackStream.update
      rw [hcur]
      have hgate : ¬ (force = false ∧
          now - ({ u with pending_text := text } :
            SlackStream.StreamingSlackUpdater).last_update_time <
            ({ u with pending_text := text } :
              SlackStream.StreamingSlackUpdater).update_interval) := by
        rcases hdeb with hf | hiv
        · rintro ⟨hf0, -⟩; rw [hf] at hf0; exact Bool.noConfusion hf0
        · rintro ⟨-, hlt⟩; exact absurd hlt (not_lt.mpr hiv)
      dsimp only
      rw [if_neg hgate, if_pos hlen]
    rw [hsplit]
    refine ⟨rfl, rfl, rfl, ?_, ?_, SlackStream.strTake_append_strDrop _ _⟩
    · simp [SlackStream.split_message, SlackStream.Surface.post,
        SlackStream.Surface.updateMsg, hts, Ne.symm hts]
    · simp [SlackStream.split_message, SlackStream.Surface.post,
        SlackStream.Surface.updateMsg]
  · -- ClaudeProcessor._split_and_continue
    intro stp sfp
    refine ⟨?_, ?_, ?_, ?_⟩
    · cases hm : stp.msg_ts <;> simp [ClaudeProc.split_and_continue, hm]
    · refine ⟨(stp.text.data.drop (ClaudeProc.breakPoint
          stp.text.data)).takeWhile (fun c => c.isWhitespace),
        (ClaudeProc.lstripChars_spec _).1, ?_⟩
      show String.mk ((stp.text.data.take (ClaudeProc.breakPoint
          stp.text.data) ++
          (stp.text.data.drop (ClaudeProc.breakPoint
            stp.text.data)).takeWhile (fun c => c.isWhitespace)) ++
          ClaudeProc.lstripChars (stp.text.data.drop
            (ClaudeProc.breakPoint stp.text.data))) = stp.text
      rw [List.append_assoc, (ClaudeProc.lstripChars_spec
          (stp.text.data.drop (ClaudeProc.breakPoint stp.text.data))).2,
        List.take_append_drop]
    · cases hm : stp.msg_ts <;> simp [ClaudeProc.split_and_continue, hm]
    · intro i hi
      have hspec := ClaudeProc.rfind1_spec _ _ _ _ _ hi
      refine ⟨hspec.1, ?_⟩
      unfold ClaudeProc.breakPoint
      dsimp only
      rw [hi]
      unfold ClaudeProc.posIfPositive
      dsimp only
      have hpos : 0 < i := by
        have := hspec.2.1
        have h2 : (0 : ℕ) < ClaudeProc.SLACK_MAX_MESSAGE_LENGTH - 200 -
            500 := by norm_num [ClaudeProc.SLACK_MAX_MESSAGE_LENGTH]
        omega
      rw [if_pos hpos]

/-- Witness for the amended C3 at a small concrete limit (110), text of
length 111 and a forced update. -/
theorem C3_witness :
    (({ channel := "C", thread_ts := 0, update_interval := 1,
        max_message_length := 110, current_message := some 0,
        last_update_time := 0, pending_text := "", message_count := 1 } :
      SlackStream.StreamingSlackUpdater).current_message = some 0 ∧
      (0 : ℕ) ≠ 1 ∧
      (110 : ℕ) < (String.mk (List.replicate 111 'b')).length) ∧
    ((SlackStream.update
        { channel := "C", thread_ts := 0, update_interval := 1,
          max_message_length := 110, current_message := some 0,
          last_update_time := 0, pending_text := "", message_count := 1 }
        { texts := fun t => if t = 0 then some "old" else none, nextTs := 1 }
        10 (String.mk (List.replicate 111 'b')) true).1.message_count =
      1 + 1) := by
  refine ⟨⟨rfl, by decide, by decide⟩, ?_⟩
  exact (C3_split_once_and_reconstruct
    { channel := "C", thread_ts := 0, update_interval := 1,
      max_message_length := 110, current_message := some 0,
      last_update_time := 0, pending_text := "", message_count := 1 }
    { texts := fun t => if t = 0 then some "old" else none, nextTs := 1 }
    10 (String.mk (List.replicate 111 'b')) true 0
    rfl (by decide) (Or.inl rfl) (by decide)).1.1

namespace SSHExec

/-!  Embedding of `SSHExecutor.execute_claude_streaming` in
`src/src/orchestrator/services/ssh_executor.py`.

The launched process is abstracted by its observable outcome (stdout
lines, return code, stderr, whether the wait timed out).  The generator is
modelled by its total effect: the list of stripped non-empty lines it
yields, how it terminates (`Except.error` = an exception propagates to the
caller), and the log records it emits.  On `TimeoutExpired` the code kills
the process and re-raises; on a non-zero return code it only logs
`stderr[:500]` and falls through to a normal return.  -/

structure ProcessOutcome where
  stdoutLines : List String
  returncode : Int
  stderr : String
  timedOut : Bool := false

def SSH_TIMEOUT_SECONDS : ℕ := 600

/-- Python `line.strip()`: drop leading and trailing whitespace. -/
def stripStr (s : String) : String :=
  String.mk (((s.data.dropWhile (fun c => c.isWhitespace)).reverse.dropWhile
    (fun c => c.isWhitespace)).reverse)

def execute_claude_streaming (p : ProcessOutcome) :
    Except String (List String) × List String :=
  let yielded := (p.stdoutLines.map stripStr).filter
    (fun l => !l.isEmpty)
  if p.timedOut then
    (.error "TimeoutExpired", ["SSH execution timed out"])
  else if p.returncode ≠ 0 then
    (.ok yielded,
      ["SSH execution failed: " ++ SlackStream.strTake p.stderr 500])
  else (.ok yielded, [])

end SSHExec

/-- C2: claim refuted by the code — on a non-zero return code
`execute_claude_streaming` merely logs the failure (with the `stderr[:500]`
prefix) and returns normally to the caller; no execution-failure error is
raised.  Here the process exits with code 1 and stderr "boom", yet the
result is `Except.ok` with the yielded lines, the bounded stderr appearing
only in the log. -/
theorem C2_nonzero_exit_returns_normally :
    (SSHExec.execute_claude_streaming
        { stdoutLines := ["line1", ""], returncode := 1,
          stderr := "boom" }).1 = Except.ok ["line1"] ∧
      (SSHExec.execute_claude_streaming
        { stdoutLines := ["line1", ""], returncode := 1,
          stderr := "boom" }).2 = ["SSH execution failed: boom"] := by
  constructor <;> rfl

namespace SlackTask

/-!  Embedding of the session-contention retry logic:

* `process_attempts` — the `try/except` skeleton of
  `process_slack_message` in `src/src/orchestrator/tasks/slack.py`
  (lines 104-156): the first streaming execution uses new-session
  semantics; if it raises an error whose lowercased text contains
  "already in use", the entire execution is retried exactly once with
  `resume_session=session_id`; an error of the second attempt (or a
  non-contention error of the first) propagates to the outer handler and
  the turn fails — there is no further retry.

* `run_claude` — `ClaudeProcessor._run_claude` in
  `src/src/orchestrator/services/claude.py` (lines 282-317): the first
  process is started with `--session-id`; if its first output line
  contains "already in use" it is killed and a single fresh process is
  started with `--resume` and the same id, whose output is processed
  without any further contention check.  -/

inductive ExecMode where
  | newSession (session_id : String)
  | resume (session_id : String)
deriving DecidableEq

inductive TaskStatus where
  | completed
  | error (msg : String)
deriving DecidableEq

/-- Does `target` start with `lead`? -/
def leadsWith : List Char → List Char → Bool
  | [], _ => true
  | _ :: _, [] => false
  | c :: cs, d :: ds => c = d && leadsWith cs ds

/-- Does `sub` occur contiguously in the list? -/
def occursIn (sub : List Char) : List Char → Bool
  | [] => leadsWith sub []
  | c :: rest => leadsWith sub (c :: rest) || occursIn sub rest

/-- Python `sub in s`. -/
def containsSubstr (s sub : String) : Bool := occursIn sub.data s.data

/-- Python `s.lower()` (character-wise, which is what the checked ASCII
signal string exercises). -/
def lower (s : String) : String := String.mk (s.data.map Char.toLower)

/-- `process_slack_message`'s execution/retry skeleton: which executions
are launched (in order) and how the turn ends. -/
def process_attempts (sid : String) (env : ExecMode → Option String) :
    List ExecMode × TaskStatus :=
  match env (.newSession sid) with
  | none => ([.newSession sid], .completed)
  | some e =>
      if containsSubstr (lower e) "already in use" then
        match env (.resume sid) with
        | none => ([.newSession sid, .resume sid], .completed)
        | some e2 => ([.newSession sid, .resume sid], .error e2)
      else ([.newSession sid], .error e)

/-- `ClaudeProcessor._run_claude`: processes launched (in order) and the
output lines actually processed. -/
def run_claude (sid : String) (env : ExecMode → List String) :
    List ExecMode × List String :=
  match env (.newSession sid) with
  | [] => ([.newSession sid], [])
  | first_line :: _ =>
      if containsSubstr first_line "already in use" then
        ([.newSession sid, .resume sid], env (.resume sid))
      else ([.newSession sid], env (.newSession sid))

end SlackTask

/-- C5: when the first execution signals that the session id is already in
use, both execution paths retry the entire execution exactly once with
resume semantics and the same SessionId, and never a third time: the task
skeleton launches exactly `[new, resume]` and reports completion or the
second attempt's error as-is; `_run_claude` kills the first process and
processes exactly the resume process's output, with no contention check on
the second attempt. -/
theorem C5_session_contention_one_shot_resume
    (sid : String) (envT : SlackTask.ExecMode → Option String) (e : String)
    (envC : SlackTask.ExecMode → List String) (l : String)
    (rest : List String)
    (hfirst : envT (.newSession sid) = some e)
    (hsig : SlackTask.containsSubstr (SlackTask.lower e) "already in use" = true)
    (hl : envC (.newSession sid) = l :: rest)
    (hc : SlackTask.containsSubstr l "already in use" = true) :
    ((SlackTask.process_attempts sid envT).1 =
        [.newSession sid, .resume sid] ∧
      (envT (.resume sid) = none →
        (SlackTask.process_attempts sid envT).2 = .completed) ∧
      (∀ e2, envT (.resume sid) = some e2 →
        (SlackTask.process_attempts sid envT).2 = .error e2)) ∧
    SlackTask.run_claude sid envC =
      ([.newSession sid, .resume sid], envC (.resume sid)) := by
  constructor
  · unfold SlackTask.process_attempts
    rw [hfirst]
    dsimp only
    rw [if_pos hsig]
    refine ⟨?_, ?_, ?_⟩
    · cases hr : envT (.resume sid) <;> simp [hr]
    · intro hr; rw [hr]
    · intro e2 hr; rw [hr]
  · unfold SlackTask.run_claude
    split
    · simp_all
    · rename_i l' rest' heq
      rw [hl] at heq
      obtain ⟨rfl, rfl⟩ : l = l' ∧ rest = rest' := by
        exact ⟨(List.cons.injEq .. ▸ heq).1, (List.cons.injEq .. ▸ heq).2⟩
      rw [if_pos hc]

/-- Witness for C5: the first attempt reports
"Session already in use", the resume attempt succeeds. -/
theorem C5_witness :
    ((fun m => match m with
        | SlackTask.ExecMode.newSession _ =>
            some "Error: Session already in use"
        | SlackTask.ExecMode.resume _ => none)
          (SlackTask.ExecMode.newSession "sid-1") =
        some "Error: Session already in use" ∧
      SlackTask.containsSubstr
        (SlackTask.lower "Error: Session already in use")
        "already in use" = true) ∧
    (SlackTask.process_attempts "sid-1"
        (fun m => match m with
          | SlackTask.ExecMode.newSession _ =>
              some "Error: Session already in use"
          | SlackTask.ExecMode.resume _ => none)).1 =
      [.newSession "sid-1", .resume "sid-1"] ∧
    SlackTask.run_claude "sid-1"
        (fun m => match m with
          | SlackTask.ExecMode.newSession _ => ["session already in use"]
          | SlackTask.ExecMode.resume _ => ["ok line"]) =
      ([.newSession "sid-1", .resume "sid-1"], ["ok line"]) := by
  have h := C5_session_contention_one_shot_resume "sid-1"
    (fun m => match m with
      | SlackTask.ExecMode.newSession _ =>
          some "Error: Session already in use"
      | SlackTask.ExecMode.resume _ => none)
    "Error: Session already in use"
    (fun m => match m with
      | SlackTask.ExecMode.newSession _ => ["session already in use"]
      | SlackTask.ExecMode.resume _ => ["ok line"])
    "session already in use" []
    rfl (by decide) rfl (by decide)
  exact ⟨⟨rfl, by decide⟩, h.1.1, h.2⟩
